import Mathlib

/-!
Verification of the task-master backend (`src/server.js`) against its
specification. The development shallowly embeds the route handlers and the
SQL statements they issue: the relational store is a list of rows together
with an id counter (modelling `SERIAL`) and a clock (modelling
`CURRENT_TIMESTAMP`); each handler becomes a pure function returning
`Except Failure _`, where a `.error` result corresponds to an HTTP error
response issued before or instead of any row mutation. JSON body fields are
`Option String` (absent / present); JavaScript truthiness of a body field is
`truthy` below (absent and `""` are falsy, mirroring `!x`). Timestamp
parsing (JS `Date.parse` and the store's text-to-timestamp cast) is
abstracted as a function parameter `pt : String → Option Nat`. `ORDER BY`
is modelled by a stable insertion sort; the store leaves tie order
unspecified, and no claim depends on it. The duplicate registration of the
filter route in the source is dead code (the dispatcher uses the first
matching route) and is modelled once.
-/

set_option maxHeartbeats 1000000

namespace TaskMaster

/-- A row of the `users` table (`id, username, email, password, created_at`);
`password` holds the bcrypt hash. -/
structure User where
  id : Nat
  username : String
  email : String
  password : String
  created_at : Nat
deriving Repr, DecidableEq

/-- A row of the `tasks` table. `title` and `priority` are `NOT NULL` on
every row the in-scope operations can produce; `description`, `status` and
`deadline` are nullable (`none` is SQL `NULL`). -/
structure Task where
  id : Nat
  user_id : Nat
  title : String
  description : Option String
  status : Option String
  priority : String
  deadline : Option Nat
  created_at : Nat
deriving Repr, DecidableEq

/-- The task store: rows plus the `SERIAL` counter and the current clock. -/
structure Db where
  tasks : List Task
  nextId : Nat
  now : Nat
deriving Repr, DecidableEq

/-- JSON body of `POST /tasks` and `PUT /tasks/:id`: each field is absent or
a string (an explicit JSON `null` behaves like absence both in the `!x`
checks and in `COALESCE`, so it is merged into `none`). -/
structure TaskBody where
  title : Option String
  description : Option String
  status : Option String
  priority : Option String
  deadline : Option String
deriving Repr, DecidableEq

/-- Query string of `GET /tasks/filter`. -/
structure FilterQuery where
  status : Option String
  priority : Option String
  due_date : Option String
deriving Repr, DecidableEq

/-- The error taxonomy of the handlers, with the literal response messages
from the source; the constructor determines the HTTP status
(400 / 404 / 401 / 500). -/
inductive Failure where
  | validationError (msg : String)
  | notFound (msg : String)
  | unauthorized (msg : String)
  | internalError (msg : String)
deriving Repr, DecidableEq

/-- Payload of the JWT issued on login success: the claims `{id, username}`
(signing and expiry are external to the embedding). -/
structure LoginOk where
  id : Nat
  username : String
deriving Repr, DecidableEq

/-- JavaScript truthiness of an optional string body field: `undefined`,
`null` and `""` are falsy. -/
def truthy : Option String → Bool
  | none => false
  | some s => !(s == "")

/-- `validPriorities` from the create handler. -/
def validPriorities : List String := ["low", "medium", "high"]

/-- `validStatuses` from the create handler. -/
def validStatuses : List String := ["pending", "in-progress", "completed"]

/-- The store-side conversion of the `deadline` body field into the
timestamp parameter: absent becomes `NULL`; a present string must parse,
otherwise the store raises and the handler answers 500. -/
def parsedDeadline (pt : String → Option Nat) : Option String → Except Unit (Option Nat)
  | none => .ok none
  | some s =>
    match pt s with
    | some n => .ok (some n)
    | none => .error ()

/-- The row inserted by `POST /tasks` for owner `o`, body `b` and parsed
deadline `dl`: `RETURNING *` yields exactly this record. -/
def mkCreated (o : Nat) (b : TaskBody) (dl : Option Nat) (db : Db) : Task :=
  { id := db.nextId
    user_id := o
    title := b.title.getD ""
    description := b.description
    status := b.status
    priority := b.priority.getD ""
    deadline := dl
    created_at := db.now }

/-- `POST /tasks`: the validation chain of the handler followed by the
`INSERT ... RETURNING *`. Note that the status check is guarded by the
truthiness of `status`, so an empty-string status skips it. -/
def createTask (pt : String → Option Nat) (o : Nat) (b : TaskBody) (db : Db) :
    Except Failure (Db × Task) :=
  if !(truthy b.title && truthy b.priority) then
    .error (.validationError "Title and priority are required")
  else if !(validPriorities.contains (b.priority.getD "")) then
    .error (.validationError "Invalid priority")
  else if truthy b.status && !(validStatuses.contains (b.status.getD "")) then
    .error (.validationError "Invalid status")
  else
    match parsedDeadline pt b.deadline with
    | .error _ => .error (.internalError "Failed to create task")
    | .ok dl =>
      .ok ({ db with tasks := db.tasks ++ [mkCreated o b dl db], nextId := db.nextId + 1 },
           mkCreated o b dl db)

/-- Insert `a` into `l` keeping `le`-sorted order (stable). -/
def insertByKey {α : Type} (le : α → α → Bool) (a : α) : List α → List α
  | [] => [a]
  | b :: l => if le a b then a :: b :: l else b :: insertByKey le a l

/-- Stable insertion sort, modelling `ORDER BY`. -/
def sortBy {α : Type} (le : α → α → Bool) : List α → List α
  | [] => []
  | a :: l => insertByKey le a (sortBy le l)

/-- Comparator of `ORDER BY created_at DESC`. -/
def createdGe (a b : Task) : Bool := decide (b.created_at ≤ a.created_at)

/-- Descending comparison of nullable timestamps: the store puts `NULL`
first on a descending sort, i.e. treats it as largest. -/
def optGe : Option Nat → Option Nat → Bool
  | none, _ => true
  | some _, none => false
  | some x, some y => decide (y ≤ x)

/-- Comparator of `ORDER BY deadline DESC`. -/
def deadlineGe (a b : Task) : Bool := optGe a.deadline b.deadline

/-- `GET /tasks`: `SELECT * FROM tasks WHERE user_id = $1 ORDER BY
created_at DESC`. -/
def listTasks (o : Nat) (db : Db) : List Task :=
  sortBy createdGe (db.tasks.filter (fun t => t.user_id == o))

/-- `COALESCE($i, col)` for a nullable column. -/
def coalesce {α : Type} : Option α → Option α → Option α
  | none, old => old
  | some v, _ => some v

/-- The `SET` clause of the update statement applied to one row: each
supplied parameter replaces the column, each `NULL` parameter keeps it. -/
def applyUpdate (b : TaskBody) (dl : Option Nat) (t : Task) : Task :=
  { t with
    title := b.title.getD t.title
    description := coalesce b.description t.description
    status := coalesce b.status t.status
    priority := b.priority.getD t.priority
    deadline := coalesce dl t.deadline }

/-- The emptiness check of `PUT /tasks/:id`:
`!title && !description && !status && !priority && !deadline` rejects the
request when this is `false`. -/
def anyProvided (b : TaskBody) : Bool :=
  truthy b.title || truthy b.description || truthy b.status ||
    truthy b.priority || truthy b.deadline

/-- `PUT /tasks/:id`: emptiness check, then `UPDATE ... SET col =
COALESCE($i, col) ... WHERE id = $6 AND user_id = $7 RETURNING *`; zero
matched rows answer 404 (and the statement changes nothing, which the
`Except` result reflects: no new store is produced). The handler performs
no enumeration validation on `status`/`priority`. -/
def updateTask (pt : String → Option Nat) (o tid : Nat) (b : TaskBody) (db : Db) :
    Except Failure (Db × Task) :=
  if !(anyProvided b) then
    .error (.validationError "At least one field must be provided to update")
  else
    match parsedDeadline pt b.deadline with
    | .error _ => .error (.internalError "Failed to update task")
    | .ok dl =>
      match db.tasks.find? (fun u => u.id == tid && u.user_id == o) with
      | none => .error (.notFound "Task not found or not authorized to update")
      | some t =>
        .ok ({ db with tasks := db.tasks.map (fun u =>
                 if u.id == tid && u.user_id == o then applyUpdate b dl u else u) },
             applyUpdate b dl t)

/-- `DELETE /tasks/:id`: `DELETE FROM tasks WHERE id = $1 AND user_id = $2
RETURNING *`; zero matched rows answer 404 and remove nothing. -/
def deleteTask (o tid : Nat) (db : Db) : Except Failure Db :=
  if db.tasks.any (fun t => t.id == tid && t.user_id == o) then
    .ok { db with tasks := db.tasks.filter (fun t => !(t.id == tid && t.user_id == o)) }
  else
    .error (.notFound "Task not found or not authorized to delete")

/-- The `WHERE` clause of the filter query for one row: each `NULL`
criterion matches every row, a `NULL` column never satisfies an equality or
`<=` criterion. -/
def filterPred (statusQ priorityQ : Option String) (dueQ : Option Nat) (o : Nat)
    (t : Task) : Bool :=
  (t.user_id == o)
  && (match statusQ with | none => true | some v => t.status == some v)
  && (match priorityQ with | none => true | some v => t.priority == v)
  && (match dueQ with
      | none => true
      | some v => match t.deadline with | none => false | some d => decide (d ≤ v))

/-- `GET /tasks/filter`: validates `due_date` when truthy, then runs the
query with `status || null`, `priority || null` and the parsed date. -/
def filterTasks (pt : String → Option Nat) (o : Nat) (q : FilterQuery) (db : Db) :
    Except Failure (List Task) :=
  if truthy q.due_date && (pt (q.due_date.getD "")).isNone then
    .error (.validationError "Invalid date format for due_date")
  else
    .ok (sortBy createdGe (db.tasks.filter (filterPred
      (if truthy q.status then q.status else none)
      (if truthy q.priority then q.priority else none)
      (if truthy q.due_date then pt (q.due_date.getD "") else none) o)))

/-- `ILIKE` pattern matching featured on char lists, modelling the store's
case-insensitive `LIKE`: `%` matches any sequence, `_` any single
character, a backslash escapes the next pattern character, anything else
matches itself up to lowercasing. A pattern ending in a bare backslash is
an error in the store; it is modelled as matching nothing, and no theorem
depends on that corner. -/
def ilikeMatch : List Char → List Char → Bool
  | [], s => s.isEmpty
  | c :: ps, s =>
    if c = '%' then
      s.tails.any (fun t => ilikeMatch ps t)
    else if c = '\\' then
      match ps, s with
      | p2 :: ps2, c2 :: s2 => (p2.toLower == c2.toLower) && ilikeMatch ps2 s2
      | _, _ => false
    else if c = '_' then
      match s with
      | [] => false
      | _ :: s2 => ilikeMatch ps s2
    else
      match s with
      | [] => false
      | c2 :: s2 => (c.toLower == c2.toLower) && ilikeMatch ps s2

/-- `pat ILIKE s` on strings. -/
def ilikeStr (pat s : String) : Bool := ilikeMatch pat.data s.data

/-- `GET /tasks/search`: keyword truthiness check, then
`WHERE user_id = $1 AND (title ILIKE $2 OR description ILIKE $2)` with
`$2 = '%' ++ keyword ++ '%'`, `ORDER BY deadline DESC`. A `NULL`
description never satisfies the `ILIKE`. -/
def searchTasks (o : Nat) (keyword : Option String) (db : Db) :
    Except Failure (List Task) :=
  if !(truthy keyword) then
    .error (.validationError "Keyword is required for searching")
  else
    .ok (sortBy deadlineGe (db.tasks.filter (fun t =>
      (t.user_id == o)
      && (ilikeStr ("%" ++ keyword.getD "" ++ "%") t.title
          || (match t.description with
              | none => false
              | some d => ilikeStr ("%" ++ keyword.getD "" ++ "%") d)))))

/-- `POST /login`: presence check, `SELECT * FROM users WHERE email = $1 OR
username = $1`, 404 on zero rows, then bcrypt comparison against
`rows[0].password` only; `verify` abstracts `bcrypt.compare`. -/
def login (verify : String → String → Bool) (emailOrUsername password : Option String)
    (users : List User) : Except Failure LoginOk :=
  if !(truthy emailOrUsername) || !(truthy password) then
    .error (.validationError "Email/Username and password are required")
  else
    let ident := emailOrUsername.getD ""
    match users.filter (fun u => u.email == ident || u.username == ident) with
    | [] => .error (.notFound "User not found")
    | u :: _ =>
      if verify (password.getD "") u.password then
        .ok { id := u.id, username := u.username }
      else
        .error (.unauthorized "Invalid password")

/-- Case-insensitive "starts with" on char lists (spec-side notion). -/
def startsWithIC : List Char → List Char → Bool
  | [], _ => true
  | _ :: _, [] => false
  | c :: n, c2 :: h => (c.toLower == c2.toLower) && startsWithIC n h

/-- Case-insensitive substring containment on char lists (spec-side
notion): some tail of the haystack starts with the needle. -/
def containsIC (n h : List Char) : Bool := h.tails.any (startsWithIC n)

/-- Case-insensitive substring containment on strings. -/
def specContains (kw s : String) : Bool := containsIC kw.data s.data

/-- A character that is not a `LIKE` metacharacter. -/
def litChar (c : Char) : Bool := !(c == '%') && !(c == '_') && !(c == '\\')

/-- A keyword free of the `LIKE` metacharacters `%`, `_` and `\`. -/
def noMetaL (k : List Char) : Bool := k.all litChar

/-- The spec's search predicate: owned by `o` and the title or the (present)
description contains the keyword case-insensitively. -/
def specSearchMatch (o : Nat) (kw : String) (t : Task) : Bool :=
  (t.user_id == o)
  && (specContains kw t.title
      || (match t.description with | none => false | some d => specContains kw d))

/-- The spec's Task invariant: priority in its enumeration, status (when
present) in its enumeration. -/
def TaskInv (t : Task) : Prop :=
  t.priority ∈ validPriorities ∧ ∀ s, t.status = some s → s ∈ validStatuses

/-! ### Helper lemmas about the sort -/

theorem perm_insertByKey {α : Type} (le : α → α → Bool) (a : α) (l : List α) :
    List.Perm (insertByKey le a l) (a :: l) := by
  induction l with
  | nil => exact List.Perm.refl _
  | cons b l ih =>
    rw [insertByKey]
    by_cases h : le a b = true
    · rw [if_pos h]
    · rw [if_neg h]
      exact (List.Perm.cons b ih).trans (List.Perm.swap a b l)

theorem perm_sortBy {α : Type} (le : α → α → Bool) (l : List α) :
    List.Perm (sortBy le l) l := by
  induction l with
  | nil => exact List.Perm.refl _
  | cons a l ih => exact (perm_insertByKey le a (sortBy le l)).trans (List.Perm.cons a ih)

theorem mem_sortBy {α : Type} (le : α → α → Bool) (l : List α) (x : α) :
    x ∈ sortBy le l ↔ x ∈ l :=
  (perm_sortBy le l).mem_iff

theorem pairwise_insertByKey {α : Type} (le : α → α → Bool)
    (htot : ∀ a b, le a b = true ∨ le b a = true)
    (htrans : ∀ a b c, le a b = true → le b c = true → le a c = true)
    (a : α) (l : List α) (hl : l.Pairwise (fun x y => le x y = true)) :
    (insertByKey le a l).Pairwise (fun x y => le x y = true) := by
  induction l with
  | nil => simp [insertByKey]
  | cons b l ih =>
    rw [List.pairwise_cons] at hl
    rw [insertByKey]
    by_cases h : le a b = true
    · rw [if_pos h]
      refine List.pairwise_cons.mpr ⟨?_, List.pairwise_cons.mpr hl⟩
      intro x hx
      rcases List.mem_cons.mp hx with rfl | hx
      · exact h
      · exact htrans a b x h (hl.1 x hx)
    · rw [if_neg h]
      refine List.pairwise_cons.mpr ⟨?_, ih hl.2⟩
      intro x hx
      rcases List.mem_cons.mp ((perm_insertByKey le a l).mem_iff.mp hx) with h1 | hx
      · rw [h1]
        rcases htot a b with h2 | h2
        · exact absurd h2 h
        · exact h2
      · exact hl.1 x hx

theorem pairwise_sortBy {α : Type} (le : α → α → Bool)
    (htot : ∀ a b, le a b = true ∨ le b a = true)
    (htrans : ∀ a b c, le a b = true → le b c = true → le a c = true)
    (l : List α) : (sortBy le l).Pairwise (fun x y => le x y = true) := by
  induction l with
  | nil => simp [sortBy]
  | cons a l ih => exact pairwise_insertByKey le htot htrans a _ ih

theorem optGe_total (x y : Option Nat) : optGe x y = true ∨ optGe y x = true := by
  rcases x with _ | x <;> rcases y with _ | y <;> simp [optGe] <;> omega

theorem optGe_trans (x y z : Option Nat) (h1 : optGe x y = true) (h2 : optGe y z = true) :
    optGe x z = true := by
  rcases x with _ | x <;> rcases y with _ | y <;> rcases z with _ | z <;>
    simp_all [optGe] <;> omega

theorem deadlineGe_total (a b : Task) : deadlineGe a b = true ∨ deadlineGe b a = true :=
  optGe_total a.deadline b.deadline

theorem deadlineGe_trans (a b c : Task) (h1 : deadlineGe a b = true)
    (h2 : deadlineGe b c = true) : deadlineGe a c = true :=
  optGe_trans a.deadline b.deadline c.deadline h1 h2

theorem createdGe_total (a b : Task) : createdGe a b = true ∨ createdGe b a = true := by
  simp only [createdGe, decide_eq_true_eq]
  omega

theorem createdGe_trans (a b c : Task) (h1 : createdGe a b = true)
    (h2 : createdGe b c = true) : createdGe a c = true := by
  simp only [createdGe, decide_eq_true_eq] at *
  omega

/-! ### Inversion lemmas for the handlers -/

theorem mem_of_contains {x : String} {l : List String} (h : l.contains x = true) : x ∈ l :=
  List.elem_iff.mp h

theorem createTask_ok {pt : String → Option Nat} {o : Nat} {b : TaskBody} {db db' : Db}
    {t : Task} (h : createTask pt o b db = .ok (db', t)) :
    ∃ dl, parsedDeadline pt b.deadline = .ok dl ∧ t = mkCreated o b dl db
      ∧ db' = { db with tasks := db.tasks ++ [mkCreated o b dl db], nextId := db.nextId + 1 }
      ∧ truthy b.title = true ∧ truthy b.priority = true
      ∧ b.priority.getD "" ∈ validPriorities
      ∧ (truthy b.status = true → b.status.getD "" ∈ validStatuses) := by
  unfold createTask at h
  split at h
  · simp at h
  rename_i h1
  split at h
  · simp at h
  rename_i h2
  split at h
  · simp at h
  rename_i h3
  split at h
  · simp at h
  rename_i dl hdl
  simp only [Except.ok.injEq, Prod.mk.injEq] at h
  obtain ⟨hdb, ht⟩ := h
  simp at h1 h2 h3
  exact ⟨dl, hdl, ht.symm, hdb.symm, h1.1, h1.2, h2, h3⟩

theorem updateTask_ok {pt : String → Option Nat} {o tid : Nat} {b : TaskBody} {db db' : Db}
    {t' : Task} (h : updateTask pt o tid b db = .ok (db', t')) :
    ∃ dl t, parsedDeadline pt b.deadline = .ok dl
      ∧ db.tasks.find? (fun u => u.id == tid && u.user_id == o) = some t
      ∧ t' = applyUpdate b dl t
      ∧ db'.tasks = db.tasks.map (fun u =>
          if u.id == tid && u.user_id == o then applyUpdate b dl u else u)
      ∧ db'.nextId = db.nextId ∧ db'.now = db.now := by
  unfold updateTask at h
  split at h
  · simp at h
  split at h
  · simp at h
  next dl hdl =>
    split at h
    · simp at h
    next t hft =>
      simp only [Except.ok.injEq, Prod.mk.injEq] at h
      obtain ⟨hdb, ht⟩ := h
      exact ⟨dl, t, hdl, hft, ht.symm, by rw [← hdb], by rw [← hdb], by rw [← hdb]⟩

theorem find?_middle {α : Type} (p : α → Bool) (l1 l2 : List α) (t : α)
    (h1 : ∀ u ∈ l1, p u = false) (ht : p t = true) :
    List.find? p (l1 ++ t :: l2) = some t := by
  induction l1 with
  | nil => simpa using List.find?_cons_of_pos l2 ht
  | cons a l ih =>
    have ha := h1 a (List.mem_cons_self a l)
    simp only [List.cons_append, List.find?]
    rw [ha]
    exact ih (fun u hu => h1 u (List.mem_cons_of_mem a hu))

theorem filter_drop_last {α : Type} (p : α → Bool) (l : List α) (x : α) (hx : p x = false) :
    List.filter p (l ++ [x]) = List.filter p l := by
  rw [List.filter_append]
  simp [List.filter, hx]

/-! ### Helper lemmas about the `ILIKE` embedding -/

theorem ilike_pct_eq (ps s : List Char) :
    ilikeMatch ('%' :: ps) s = s.tails.any (fun t => ilikeMatch ps t) := by
  cases ps <;> cases s <;> rfl

theorem ilike_lit_nil (c : Char) (ps : List Char) (hc1 : c ≠ '%') :
    ilikeMatch (c :: ps) [] = false := by
  cases ps <;> simp [ilikeMatch, hc1]

theorem ilike_lit_cons (c : Char) (ps : List Char) (c2 : Char) (s2 : List Char)
    (hc1 : c ≠ '%') (hc2 : c ≠ '_') (hc3 : c ≠ '\\') :
    ilikeMatch (c :: ps) (c2 :: s2) = ((c.toLower == c2.toLower) && ilikeMatch ps s2) := by
  cases ps <;> simp [ilikeMatch, hc1, hc2, hc3]

theorem ilike_pct (s : List Char) : ilikeMatch ['%'] s = true := by
  rw [show (['%'] : List Char) = '%' :: [] from rfl, ilike_pct_eq]
  refine List.any_eq_true.mpr ⟨[], (List.mem_tails _ _).mpr List.nil_suffix, ?_⟩
  rfl

theorem ilike_trailing (k : List Char) (hk : noMetaL k = true) :
    ∀ s, ilikeMatch (k ++ ['%']) s = startsWithIC k s := by
  induction k with
  | nil =>
    intro s
    simpa [startsWithIC] using ilike_pct s
  | cons c k ih =>
    intro s
    simp only [noMetaL, List.all_cons, Bool.and_eq_true] at hk
    obtain ⟨hc, hk'⟩ := hk
    simp only [litChar, Bool.and_eq_true, Bool.not_eq_true', beq_eq_false_iff_ne] at hc
    obtain ⟨⟨hc1, hc2⟩, hc3⟩ := hc
    rw [List.cons_append]
    cases s with
    | nil => rw [ilike_lit_nil c _ hc1]; simp [startsWithIC]
    | cons c2 s2 =>
      rw [ilike_lit_cons c _ c2 s2 hc1 hc2 hc3]
      simp [startsWithIC, ih hk' s2]

theorem ilike_wrapped (k : List Char) (hk : noMetaL k = true) (s : List Char) :
    ilikeMatch ('%' :: (k ++ ['%'])) s = containsIC k s := by
  have hfun : (fun t => ilikeMatch (k ++ ['%']) t) = startsWithIC k :=
    funext (ilike_trailing k hk)
  rw [ilike_pct_eq, hfun]
  rfl

theorem startsWithIC_iff (n : List Char) : ∀ h : List Char,
    startsWithIC n h = true ↔ (n.map Char.toLower) <+: (h.map Char.toLower) := by
  induction n with
  | nil =>
    intro h
    simp [startsWithIC]
  | cons c n ih =>
    intro h
    cases h with
    | nil => simp [startsWithIC]
    | cons c2 h2 =>
      simp [startsWithIC, List.cons_prefix_cons, ih h2, Bool.and_eq_true]

theorem containsIC_iff (n h : List Char) :
    containsIC n h = true ↔ (n.map Char.toLower) <:+: (h.map Char.toLower) := by
  induction h with
  | nil =>
    cases n <;> simp [containsIC, startsWithIC, List.tails]
  | cons c h ih =>
    rw [containsIC, List.tails_cons, List.any_cons, Bool.or_eq_true]
    rw [show (h.tails.any (startsWithIC n)) = containsIC n h from rfl]
    simp [startsWithIC_iff, ih, List.infix_cons_iff]

/-! ### Concrete fixtures used by counterexamples and witnesses -/

/-- A timestamp parser that accepts nothing; the fixtures never supply a
deadline string. -/
def pt0 : String → Option Nat := fun _ => none

/-- A stored task of owner 7. -/
def t0 : Task := ⟨1, 7, "buy milk", none, none, "low", none, 0⟩

/-- A second stored task of owner 7. -/
def tA : Task := ⟨2, 7, "water plants", none, none, "high", none, 3⟩

/-- A store holding `t0`. -/
def db0 : Db := ⟨[t0], 2, 5⟩

/-- A store holding `t0` and `tA`. -/
def db2 : Db := ⟨[t0, tA], 3, 9⟩

/-- An update body supplying only an out-of-enumeration priority. -/
def bodyBan : TaskBody := ⟨none, none, none, some "banana", none⟩

/-- An update body supplying only a title. -/
def bodyT : TaskBody := ⟨some "new title", none, none, none, none⟩

/-- A password check standing in for bcrypt in the witnesses: the "hash" is
the password itself. -/
def verify0 : String → String → Bool := fun p h => p == h

/-- A one-user credential store. -/
def users0 : List User := [⟨1, "alice", "a@x.com", "pw1", 0⟩]

/-- A user whose email is the ambiguous identifier `dup`. -/
def uDupA : User := ⟨1, "bob", "dup", "pw1", 0⟩

/-- A user whose username is the ambiguous identifier `dup`. -/
def uDupB : User := ⟨2, "dup", "b@x.com", "pw2", 0⟩

/-! ### Claim theorems -/

/-- C1, counterexample: the claim asserts every successful update preserves
the enumeration invariant for any supplied values, but the update handler
performs no enumeration validation: updating the stored task `t0` with
priority `"banana"` succeeds and stores a priority outside
`{low, medium, high}`. -/
theorem c1_enum_counterexample :
    updateTask pt0 7 1 bodyBan db0
        = .ok (⟨[⟨1, 7, "buy milk", none, none, "banana", none, 0⟩], 2, 5⟩,
               ⟨1, 7, "buy milk", none, none, "banana", none, 0⟩)
      ∧ ("banana" ∈ validPriorities → False) := by
  constructor
  · rfl
  · decide

/-- C1, amended: creation establishes priority ∈ {low, medium, high} and,
when the supplied status is non-empty, status ∈ {pending, in-progress,
completed}; update performs no enumeration validation, so it preserves the
invariant exactly for update bodies whose supplied priority/status values
are themselves members of their enumerations. -/
theorem c1_enum_invariant :
    (∀ pt o b db db' t, createTask pt o b db = Except.ok (db', t) →
        t.priority ∈ validPriorities ∧ ∀ s, t.status = some s → s ≠ "" → s ∈ validStatuses)
    ∧ (∀ pt o tid b db db' t',
        (∀ p, b.priority = some p → p ∈ validPriorities) →
        (∀ s, b.status = some s → s ∈ validStatuses) →
        (∀ u ∈ db.tasks, TaskInv u) →
        updateTask pt o tid b db = Except.ok (db', t') →
        (∀ u ∈ db'.tasks, TaskInv u) ∧ TaskInv t') := by
  constructor
  · intro pt o b db db' t h
    obtain ⟨dl, hdl, ht, hdb, h1, h2, hv, hs⟩ := createTask_ok h
    subst ht
    constructor
    · exact hv
    · intro s hst hs'
      have hbs : b.status = some s := hst
      have htr : truthy b.status = true := by rw [hbs]; simp [truthy, hs']
      have hmem := hs htr
      rw [hbs] at hmem
      simpa using hmem
  · intro pt o tid b db db' t' hbp hbs hInv h
    obtain ⟨dl, t, hdl, hft, ht', hdb, _, _⟩ := updateTask_ok h
    have hpres : ∀ v, TaskInv v → TaskInv (applyUpdate b dl v) := by
      intro v hv
      constructor
      · cases hp : b.priority with
        | none => simpa [applyUpdate, hp] using hv.1
        | some p => simpa [applyUpdate, hp] using hbp p hp
      · intro s hst
        cases hsb : b.status with
        | none =>
          apply hv.2
          simpa [applyUpdate, coalesce, hsb] using hst
        | some s2 =>
          have hss : s2 = s := by simpa [applyUpdate, coalesce, hsb] using hst
          rw [← hss]
          exact hbs s2 hsb
    constructor
    · intro u hu
      rw [hdb] at hu
      obtain ⟨v, hv, hvu⟩ := List.mem_map.mp hu
      rw [← hvu]
      by_cases hm : (v.id == tid && v.user_id == o) = true
      · rw [if_pos hm]; exact hpres v (hInv v hv)
      · rw [if_neg hm]; exact hInv v hv
    · rw [ht']
      exact hpres t (hInv t (List.mem_of_find?_eq_some hft))

/-- C1, witness: a concrete creation produces an in-enumeration record, and
a concrete well-behaved update (status `completed`) preserves the
invariant on the stored task. -/
theorem c1_enum_invariant_witness :
    ((⟨1, 7, "buy milk", none, none, "low", none, 5⟩ : Task).priority ∈ validPriorities
      ∧ ∀ s, (⟨1, 7, "buy milk", none, none, "low", none, 5⟩ : Task).status = some s →
          s ≠ "" → s ∈ validStatuses)
    ∧ TaskInv ⟨1, 7, "buy milk", none, some "completed", "low", none, 0⟩ := by
  constructor
  · exact c1_enum_invariant.1 pt0 7 ⟨some "buy milk", none, none, some "low", none⟩
      ⟨[], 1, 5⟩ _ _ rfl
  · refine (c1_enum_invariant.2 pt0 7 1 ⟨none, none, some "completed", none, none⟩ db0 _ _
      ?_ ?_ ?_ rfl).2
    · intro p hp
      cases hp
    · intro s hs
      cases hs
      decide
    · intro u hu
      have hu0 : u = t0 := by simpa [db0] using hu
      rw [hu0]
      exact ⟨by decide, fun s hs => by simp [t0] at hs⟩

/-- C9: an update whose five fields are all supplied but equal to the empty
string is rejected exactly like the all-absent update, with the same
`ValidationError`, because the emptiness check uses JavaScript truthiness;
no store is touched. -/
theorem c9_empty_update_rejected (pt : String → Option Nat) (o tid : Nat) (db : Db) :
    updateTask pt o tid ⟨some "", some "", some "", some "", some ""⟩ db
        = updateTask pt o tid ⟨none, none, none, none, none⟩ db
      ∧ updateTask pt o tid ⟨some "", some "", some "", some "", some ""⟩ db
        = .error (.validationError "At least one field must be provided to update") := by
  have h1 : anyProvided ⟨some "", some "", some "", some "", some ""⟩ = false := by decide
  have h2 : anyProvided ⟨none, none, none, none, none⟩ = false := by decide
  constructor
  · simp [updateTask, h1, h2]
  · simp [updateTask, h1]

/-- C3: update and delete target only the row matching both the task id and
the acting owner id; when no stored row matches — the task being absent and
the task belonging to another owner are covered uniformly by the
hypothesis — both operations fail with the one fixed `NotFound` response of
the handler, producing no new store (the zero-row statement changes
nothing); and on success every non-matching row survives unchanged. -/
theorem c3_ownership_scoping :
    (∀ pt o tid b db dl, anyProvided b = true →
        parsedDeadline pt b.deadline = Except.ok dl →
        (∀ u ∈ db.tasks, ¬(u.id = tid ∧ u.user_id = o)) →
        updateTask pt o tid b db
            = .error (.notFound "Task not found or not authorized to update")
          ∧ deleteTask o tid db
            = .error (.notFound "Task not found or not authorized to delete"))
    ∧ (∀ pt o tid b db db' t', updateTask pt o tid b db = Except.ok (db', t') →
        ∀ u ∈ db.tasks, ¬(u.id = tid ∧ u.user_id = o) → u ∈ db'.tasks)
    ∧ (∀ o tid db db', deleteTask o tid db = Except.ok db' →
        ∀ u ∈ db.tasks, ¬(u.id = tid ∧ u.user_id = o) → u ∈ db'.tasks) := by
  refine ⟨?_, ?_, ?_⟩
  · intro pt o tid b db dl hab hdl hno
    have hmatch : ∀ u ∈ db.tasks, (u.id == tid && u.user_id == o) = false := by
      intro u hu
      rw [Bool.eq_false_iff]
      intro hc
      exact hno u hu (by simpa using hc)
    constructor
    · have hf : db.tasks.find? (fun u => u.id == tid && u.user_id == o) = none :=
        List.find?_eq_none.mpr (fun u hu => by simp [hmatch u hu])
      simp [updateTask, hab, hdl, hf]
    · have ha : db.tasks.any (fun u => u.id == tid && u.user_id == o) = false :=
        List.any_eq_false.mpr (fun u hu => by simp [hmatch u hu])
      simp [deleteTask, ha]
  · intro pt o tid b db db' t' h u hu hnm
    obtain ⟨dl, t, _, _, _, hdb, _, _⟩ := updateTask_ok h
    rw [hdb]
    have heq : (if u.id == tid && u.user_id == o then applyUpdate b dl u else u) = u := by
      rw [if_neg]
      intro hcontra
      exact hnm (by simpa using hcontra)
    rw [← heq]
    exact List.mem_map_of_mem _ hu
  · intro o tid db db' h u hu hnm
    unfold deleteTask at h
    split at h
    · simp only [Except.ok.injEq] at h
      rw [← h]
      refine List.mem_filter.mpr ⟨hu, ?_⟩
      have hm : (u.id == tid && u.user_id == o) = false := by
        rw [Bool.eq_false_iff]
        intro hcontra
        exact hnm (by simpa using hcontra)
      simp [hm]
    · simp at h

/-- C3, witness: with the store `db0` (one task, id 1, owner 7), updating or
deleting task 9 as owner 5 yields the fixed `NotFound` responses, and after
owner 7 deletes task 1 from `db2` the non-matching task `tA` is still
present. -/
theorem c3_ownership_scoping_witness :
    (updateTask pt0 5 9 bodyT db0
        = .error (.notFound "Task not found or not authorized to update")
      ∧ deleteTask 5 9 db0
        = .error (.notFound "Task not found or not authorized to delete"))
    ∧ tA ∈ (⟨[tA], 3, 9⟩ : Db).tasks := by
  constructor
  · exact c3_ownership_scoping.1 pt0 5 9 bodyT db0 none (by decide) rfl (by decide)
  · exact c3_ownership_scoping.2.2 7 1 db2 ⟨[tA], 3, 9⟩ rfl tA (by decide) (by decide)

/-- C5: the filter route invoked with no status, no priority and no
due-date criterion returns exactly the rows of the unfiltered list route,
in the same creation-time-descending order. -/
theorem c5_filter_no_criteria (pt : String → Option Nat) (o : Nat) (db : Db) :
    filterTasks pt o ⟨none, none, none⟩ db = .ok (listTasks o db) := by
  show Except.ok (sortBy createdGe (db.tasks.filter (filterPred none none none o)))
      = Except.ok (sortBy createdGe (db.tasks.filter (fun t => t.user_id == o)))
  exact congrArg Except.ok (congrArg (sortBy createdGe)
    (List.filter_congr fun t _ => by simp [filterPred]))

/-- C2, counterexample: a request supplying the single field
`title = ""` supplies a non-empty subset of the five fields, so the claim
demands a successful update replacing the title; the handler's truthiness
check counts the empty string as absent and rejects the request with
`ValidationError` instead. -/
theorem c2_partial_update_counterexample :
    (⟨some "", none, none, none, none⟩ : TaskBody).title ≠ none
    ∧ updateTask pt0 7 1 ⟨some "", none, none, none, none⟩ db0
        = .error (.validationError "At least one field must be provided to update") := by
  constructor
  · simp
  · rfl

/-- C2, amended: an update body in which every field is absent or empty is
rejected with `ValidationError` and changes nothing; a body with at least
one non-empty supplied value, applied to the unique owned row matching
(taskId, ownerId), replaces exactly the present fields with the supplied
values (the deadline with its parsed timestamp), preserves every absent
field, the id, the owner id and created_at, and leaves all other rows in
place. -/
theorem c2_partial_update :
    (∀ pt o tid (b : TaskBody) (db : Db), anyProvided b = false →
        updateTask pt o tid b db
          = .error (.validationError "At least one field must be provided to update"))
    ∧ (∀ pt o tid (b : TaskBody) (db : Db) dl l1 l2 (t : Task),
        anyProvided b = true →
        parsedDeadline pt b.deadline = Except.ok dl →
        db.tasks = l1 ++ t :: l2 →
        t.id = tid → t.user_id = o →
        (∀ u ∈ l1, ¬(u.id = tid ∧ u.user_id = o)) →
        (∀ u ∈ l2, ¬(u.id = tid ∧ u.user_id = o)) →
        updateTask pt o tid b db
            = Except.ok ({ db with tasks := l1 ++ applyUpdate b dl t :: l2 },
                         applyUpdate b dl t)
          ∧ (applyUpdate b dl t).id = t.id
          ∧ (applyUpdate b dl t).user_id = t.user_id
          ∧ (applyUpdate b dl t).created_at = t.created_at
          ∧ (b.title = none → (applyUpdate b dl t).title = t.title)
          ∧ (∀ s, b.title = some s → (applyUpdate b dl t).title = s)
          ∧ (b.description = none → (applyUpdate b dl t).description = t.description)
          ∧ (∀ s, b.description = some s → (applyUpdate b dl t).description = some s)
          ∧ (b.status = none → (applyUpdate b dl t).status = t.status)
          ∧ (∀ s, b.status = some s → (applyUpdate b dl t).status = some s)
          ∧ (b.priority = none → (applyUpdate b dl t).priority = t.priority)
          ∧ (∀ s, b.priority = some s → (applyUpdate b dl t).priority = s)
          ∧ (b.deadline = none → (applyUpdate b dl t).deadline = t.deadline)
          ∧ (∀ s n, b.deadline = some s → pt s = some n →
              (applyUpdate b dl t).deadline = some n)) := by
  constructor
  · intro pt o tid b db hab
    simp [updateTask, hab]
  · intro pt o tid b db dl l1 l2 t hab hdl hsplit ht1 ht2 hl1 hl2
    have hpt : (t.id == tid && t.user_id == o) = true := by simp [ht1, ht2]
    have hfind : db.tasks.find? (fun u => u.id == tid && u.user_id == o) = some t := by
      rw [hsplit]
      refine find?_middle _ l1 l2 t (fun u hu => ?_) hpt
      rw [Bool.eq_false_iff]
      intro hc
      exact hl1 u hu (by simpa using hc)
    have hmapl1 : l1.map (fun u => if u.id == tid && u.user_id == o
        then applyUpdate b dl u else u) = l1 := by
      have hcong : ∀ u ∈ l1,
          (if u.id == tid && u.user_id == o then applyUpdate b dl u else u) = u := by
        intro u hu
        rw [if_neg]
        intro hc
        exact hl1 u hu (by simpa using hc)
      rw [List.map_congr_left hcong, List.map_id']
    have hmapl2 : l2.map (fun u => if u.id == tid && u.user_id == o
        then applyUpdate b dl u else u) = l2 := by
      have hcong : ∀ u ∈ l2,
          (if u.id == tid && u.user_id == o then applyUpdate b dl u else u) = u := by
        intro u hu
        rw [if_neg]
        intro hc
        exact hl2 u hu (by simpa using hc)
      rw [List.map_congr_left hcong, List.map_id']
    refine ⟨?_, rfl, rfl, rfl, ?_, ?_, ?_, ?_, ?_, ?_, ?_, ?_, ?_, ?_⟩
    · unfold updateTask
      rw [if_neg (by simp [hab]), hdl, hfind]
      simp only []
      rw [hsplit, List.map_append, List.map_cons, if_pos hpt, hmapl1, hmapl2]
    · intro h; simp [applyUpdate, h]
    · intro s h; simp [applyUpdate, h]
    · intro h; simp [applyUpdate, coalesce, h]
    · intro s h; simp [applyUpdate, coalesce, h]
    · intro h; simp [applyUpdate, coalesce, h]
    · intro s h; simp [applyUpdate, coalesce, h]
    · intro h; simp [applyUpdate, h]
    · intro s h; simp [applyUpdate, h]
    · intro h
      have hdl' : dl = none := by
        rw [h] at hdl
        simpa [parsedDeadline] using hdl.symm
      simp [applyUpdate, coalesce, hdl']
    · intro s n hds hpn
      have hdl' : dl = some n := by
        rw [hds] at hdl
        simp [parsedDeadline, hpn] at hdl
        exact hdl.symm
      simp [applyUpdate, coalesce, hdl']

/-- C2, witness: the all-absent body is rejected, and an update of the
stored task `t0` supplying only a title succeeds with the expected record. -/
theorem c2_partial_update_witness :
    updateTask pt0 7 1 ⟨none, none, none, none, none⟩ db0
        = .error (.validationError "At least one field must be provided to update")
    ∧ updateTask pt0 7 1 bodyT db0
        = Except.ok ({ db0 with tasks := [applyUpdate bodyT none t0] },
                     applyUpdate bodyT none t0) := by
  constructor
  · exact c2_partial_update.1 pt0 7 1 _ db0 (by decide)
  · exact (c2_partial_update.2 pt0 7 1 bodyT db0 none [] [] t0 (by decide) rfl rfl
      (by decide) (by decide) (by simp) (by simp)).1

/-- C7, counterexample: a create request with a valid title and priority
but status supplied as the empty string has status present and outside its
enumeration, so the claim demands `ValidationError`; the truthiness guard
skips the status check and the insert succeeds, storing the empty-string
status verbatim. -/
theorem c7_create_counterexample :
    createTask pt0 1 ⟨some "task", none, some "", some "low", none⟩ ⟨[], 1, 100⟩
        = .ok (⟨[⟨1, 1, "task", none, some "", "low", none, 100⟩], 2, 100⟩,
               ⟨1, 1, "task", none, some "", "low", none, 100⟩)
    ∧ ("" ∈ validStatuses → False) := by
  constructor
  · rfl
  · decide

/-- C7, amended: creation fails `ValidationError` exactly when the title or
the priority is absent or empty, or the priority is outside its
enumeration, or the status is present and non-empty but outside its
enumeration; on success (deadline absent or parseable by the store) it
inserts a row owned by the acting owner id and returns the full persisted
record, including the generated id and created_at. -/
theorem c7_create_validation (pt : String → Option Nat) (o : Nat) (b : TaskBody) (db : Db) :
    ((∃ m, createTask pt o b db = .error (.validationError m)) ↔
      (truthy b.title = false ∨ truthy b.priority = false
        ∨ b.priority.getD "" ∉ validPriorities
        ∨ (truthy b.status = true ∧ b.status.getD "" ∉ validStatuses)))
    ∧ (∀ dl, truthy b.title = true → truthy b.priority = true →
        b.priority.getD "" ∈ validPriorities →
        (truthy b.status = true → b.status.getD "" ∈ validStatuses) →
        parsedDeadline pt b.deadline = Except.ok dl →
        createTask pt o b db
            = Except.ok ({ db with
                           tasks := db.tasks ++ [mkCreated o b dl db]
                           nextId := db.nextId + 1 }, mkCreated o b dl db)
          ∧ (mkCreated o b dl db).user_id = o
          ∧ (mkCreated o b dl db).id = db.nextId
          ∧ (mkCreated o b dl db).created_at = db.now) := by
  constructor
  · cases ht : truthy b.title <;> cases hp : truthy b.priority <;>
      cases hs : truthy b.status <;>
      by_cases hvp : b.priority.getD "" ∈ validPriorities <;>
      by_cases hvs : b.status.getD "" ∈ validStatuses <;>
      simp [createTask, ht, hp, hs, hvp, hvs] <;>
      (try (cases hd : parsedDeadline pt b.deadline <;> simp [hd]))
  · intro dl h1 h2 h3 h4 hdl
    refine ⟨?_, rfl, rfl, rfl⟩
    cases hs : truthy b.status
    · simp [createTask, h1, h2, h3, hs, hdl]
    · simp [createTask, h1, h2, h3, hs, h4 hs, hdl]

/-- C7, witness: a create with no title is rejected with `ValidationError`,
and a fully valid create succeeds and returns the persisted record. -/
theorem c7_create_validation_witness :
    (∃ m, createTask pt0 1 ⟨none, none, none, some "low", none⟩ ⟨[], 1, 100⟩
        = .error (.validationError m))
    ∧ createTask pt0 1 ⟨some "task", none, none, some "low", none⟩ ⟨[], 1, 100⟩
        = Except.ok (⟨[⟨1, 1, "task", none, none, "low", none, 100⟩], 2, 100⟩,
                     ⟨1, 1, "task", none, none, "low", none, 100⟩) := by
  constructor
  · exact (c7_create_validation pt0 1 ⟨none, none, none, some "low", none⟩ ⟨[], 1, 100⟩).1.mpr
      (Or.inl (by decide))
  · exact ((c7_create_validation pt0 1 ⟨some "task", none, none, some "low", none⟩
      ⟨[], 1, 100⟩).2 none (by decide) (by decide) (by decide)
      (fun h => absurd h (by decide)) rfl).1

/-- C8: with both login fields present, the handler answers the fixed
`NotFound` response when no stored user's email or username equals the
identifier, and the fixed `Unauthorized` response when users match but the
password fails bcrypt verification against the first matching row's hash;
the two failure constructors are distinct, so the caller can tell them
apart. -/
theorem c8_login_errors (verify : String → String → Bool) (ident pw : String)
    (users : List User) (hid : ident ≠ "") (hpw : pw ≠ "") :
    ((∀ u ∈ users, u.email ≠ ident ∧ u.username ≠ ident) →
        login verify (some ident) (some pw) users = .error (.notFound "User not found"))
    ∧ (∀ u rest,
        users.filter (fun v => v.email == ident || v.username == ident) = u :: rest →
        verify pw u.password = false →
        login verify (some ident) (some pw) users
          = .error (.unauthorized "Invalid password"))
    ∧ (∀ m1 m2, Failure.notFound m1 ≠ Failure.unauthorized m2) := by
  refine ⟨?_, ?_, ?_⟩
  · intro hno
    have hf : users.filter (fun v => v.email == ident || v.username == ident) = [] := by
      rw [List.filter_eq_nil_iff]
      intro u hu
      simp [(hno u hu).1, (hno u hu).2]
    unfold login
    rw [if_neg (by simp [truthy, hid, hpw])]
    simp only [Option.getD_some]
    rw [hf]
  · intro u rest hf hv
    unfold login
    rw [if_neg (by simp [truthy, hid, hpw])]
    simp only [Option.getD_some]
    rw [hf]
    simp [hv]
  · intro m1 m2 h
    exact Failure.noConfusion h

/-- C8, witness: with one stored user (email `a@x.com`), looking up an
unknown identifier answers `NotFound`, and a wrong password for the right
identifier answers `Unauthorized`. -/
theorem c8_login_errors_witness :
    login verify0 (some "zed") (some "pw") users0 = .error (.notFound "User not found")
    ∧ login verify0 (some "a@x.com") (some "bad") users0
        = .error (.unauthorized "Invalid password") := by
  constructor
  · exact (c8_login_errors verify0 "zed" "pw" users0 (by decide) (by decide)).1 (by decide)
  · exact (c8_login_errors verify0 "a@x.com" "bad" users0 (by decide) (by decide)).2.1
      ⟨1, "alice", "a@x.com", "pw1", 0⟩ [] rfl (by decide)

/-- C10: the login query can match several rows when one user's username
equals another user's email; the handler verifies the password only against
the first row the store returns, so a password that is correct for a later
matching user still answers `Unauthorized`. -/
theorem c10_login_first_match (verify : String → String → Bool) (ident pw : String)
    (users : List User) (u1 : User) (rest : List User)
    (hid : ident ≠ "") (hpw : pw ≠ "")
    (hf : users.filter (fun v => v.email == ident || v.username == ident) = u1 :: rest)
    (hv1 : verify pw u1.password = false)
    (hv2 : ∃ u2 ∈ rest, verify pw u2.password = true) :
    login verify (some ident) (some pw) users
      = .error (.unauthorized "Invalid password") := by
  unfold login
  rw [if_neg (by simp [truthy, hid, hpw])]
  simp only [Option.getD_some]
  rw [hf]
  simp [hv1]

/-- C10, witness: `uDupA`'s email and `uDupB`'s username are both `dup`;
logging in as `dup` with `uDupB`'s correct password is refused because only
`uDupA`'s hash is checked. -/
theorem c10_login_first_match_witness :
    login verify0 (some "dup") (some "pw2") [uDupA, uDupB]
      = .error (.unauthorized "Invalid password") :=
  c10_login_first_match verify0 "dup" "pw2" [uDupA, uDupB] uDupA [uDupB]
    (by decide) (by decide) rfl (by decide)
    ⟨uDupB, by simp, by decide⟩

/-- C4: a task created by owner A (A ≠ B) never appears in owner B's list,
filter or search results, and those results over the store after the
creation are identical to the results over the store before it: every
read query is scoped by `user_id = B`. -/
theorem c4_owner_isolation (pt pt2 : String → Option Nat) (A B : Nat) (bC : TaskBody)
    (db db' : Db) (row : Task) (hAB : A ≠ B)
    (hc : createTask pt A bC db = Except.ok (db', row)) :
    (row ∉ listTasks B db' ∧ listTasks B db' = listTasks B db)
    ∧ (∀ q : FilterQuery, filterTasks pt2 B q db' = filterTasks pt2 B q db
        ∧ ∀ r, filterTasks pt2 B q db' = Except.ok r → row ∉ r)
    ∧ (∀ kw, searchTasks B kw db' = searchTasks B kw db
        ∧ ∀ r, searchTasks B kw db' = Except.ok r → row ∉ r) := by
  obtain ⟨dl, hdl, hrow, hdb, _, _, _, _⟩ := createTask_ok hc
  have huid : row.user_id = A := by rw [hrow]; rfl
  have hkey : (row.user_id == B) = false := by
    rw [Bool.eq_false_iff]
    intro hc2
    exact hAB (huid ▸ (by simpa using hc2))
  have htasks : db'.tasks = db.tasks ++ [row] := by
    rw [hdb, hrow]
  refine ⟨⟨?_, ?_⟩, ?_, ?_⟩
  · intro hmem
    have hf := List.mem_filter.mp ((mem_sortBy _ _ _).mp hmem)
    rw [hkey] at hf
    exact absurd hf.2 (by simp)
  · unfold listTasks
    rw [htasks, List.filter_append]
    simp [List.filter, hkey]
  · intro q
    constructor
    · unfold filterTasks
      by_cases hg : (truthy q.due_date && (pt2 (q.due_date.getD "")).isNone) = true
      · rw [if_pos hg, if_pos hg]
      · rw [if_neg hg, if_neg hg, htasks, List.filter_append]
        simp [List.filter, filterPred, hkey]
    · intro r hr hmem
      unfold filterTasks at hr
      split at hr
      · simp at hr
      · simp only [Except.ok.injEq] at hr
        rw [← hr] at hmem
        have hf := List.mem_filter.mp ((mem_sortBy _ _ _).mp hmem)
        have : (row.user_id == B) = true := by
          have h2 := hf.2
          simp only [filterPred, Bool.and_eq_true] at h2
          exact h2.1.1.1
        rw [hkey] at this
        exact absurd this (by simp)
  · intro kw
    constructor
    · unfold searchTasks
      by_cases hg : (!(truthy kw)) = true
      · rw [if_pos hg, if_pos hg]
      · rw [if_neg hg, if_neg hg, htasks, List.filter_append]
        simp [List.filter, hkey]
    · intro r hr hmem
      unfold searchTasks at hr
      split at hr
      · simp at hr
      · simp only [Except.ok.injEq] at hr
        rw [← hr] at hmem
        have hf := List.mem_filter.mp ((mem_sortBy _ _ _).mp hmem)
        have h2 := hf.2
        simp only [Bool.and_eq_true] at h2
        rw [hkey] at h2
        exact absurd h2.1 (by simp)

/-- C4, witness: owner 1 creates a task in the empty store; owner 2's list
over the resulting store is the same as over the empty store and does not
contain the new row. -/
theorem c4_owner_isolation_witness :
    (⟨1, 1, "secret", none, none, "low", none, 0⟩ : Task)
        ∉ listTasks 2 ⟨[⟨1, 1, "secret", none, none, "low", none, 0⟩], 2, 0⟩
    ∧ listTasks 2 ⟨[⟨1, 1, "secret", none, none, "low", none, 0⟩], 2, 0⟩
        = listTasks 2 ⟨[], 1, 0⟩ :=
  (c4_owner_isolation pt0 pt0 1 2 ⟨some "secret", none, none, some "low", none⟩
    ⟨[], 1, 0⟩ ⟨[⟨1, 1, "secret", none, none, "low", none, 0⟩], 2, 0⟩
    ⟨1, 1, "secret", none, none, "low", none, 0⟩ (by decide) rfl).1

/-- C6, counterexample: the keyword `_` is an `ILIKE` wildcard, so the
pattern `%_%` matches the title `ab` even though `ab` does not contain `_`
as a substring; the handler returns the non-matching task, contradicting
the claim's case-insensitive-substring reading for every keyword. -/
theorem c6_search_counterexample :
    searchTasks 1 (some "_") ⟨[⟨1, 1, "ab", none, none, "low", none, 0⟩], 2, 0⟩
        = .ok [⟨1, 1, "ab", none, none, "low", none, 0⟩]
    ∧ specContains "_" "ab" = false
    ∧ (⟨1, 1, "ab", none, none, "low", none, 0⟩ : Task).description = none := by
  refine ⟨rfl, by decide, rfl⟩

/-- C6, amended: search fails `ValidationError` when the keyword is absent
or empty; for a non-empty keyword free of the `LIKE` metacharacters
`%`, `_` and `\`, it returns exactly the owner's tasks whose title or
present description contains the keyword as a case-insensitive substring
(`containsIC`, proved equivalent to infix of the lowercased characters),
ordered by deadline descending with `NULL` deadlines first. -/
theorem c6_search_keyword :
    (∀ o (db : Db), searchTasks o none db
          = .error (.validationError "Keyword is required for searching")
        ∧ searchTasks o (some "") db
          = .error (.validationError "Keyword is required for searching"))
    ∧ (∀ n h, containsIC n h = true ↔ (n.map Char.toLower) <:+: (h.map Char.toLower))
    ∧ (∀ o kw (db : Db), kw ≠ "" → noMetaL kw.data = true →
        searchTasks o (some kw) db
            = .ok (sortBy deadlineGe (db.tasks.filter (specSearchMatch o kw)))
          ∧ List.Perm (sortBy deadlineGe (db.tasks.filter (specSearchMatch o kw)))
              (db.tasks.filter (specSearchMatch o kw))
          ∧ (sortBy deadlineGe (db.tasks.filter (specSearchMatch o kw))).Pairwise
              (fun a b => deadlineGe a b = true)) := by
  refine ⟨?_, containsIC_iff, ?_⟩
  · intro o db
    exact ⟨by simp [searchTasks, truthy], by simp [searchTasks, truthy]⟩
  · intro o kw db hk hm
    have hw : ∀ s : String, ilikeStr ("%" ++ kw ++ "%") s = containsIC kw.data s.data :=
      fun s => ilike_wrapped kw.data hm s.data
    have hpred : ∀ t ∈ db.tasks, (t.user_id == o
        && (ilikeStr ("%" ++ kw ++ "%") t.title
            || (match t.description with
                | none => false
                | some d => ilikeStr ("%" ++ kw ++ "%") d)))
        = specSearchMatch o kw t := by
      intro t _
      simp only [specSearchMatch, specContains, hw]
    unfold searchTasks
    rw [if_neg (by simp [truthy, hk])]
    simp only [Option.getD_some]
    rw [List.filter_congr hpred]
    exact ⟨rfl, perm_sortBy _ _, pairwise_sortBy _ deadlineGe_total deadlineGe_trans _⟩

/-- C6, witness: the missing and empty keyword are rejected over `db0`, and
searching owner 7's store for `milk` returns the matching rows sorted by
deadline. -/
theorem c6_search_keyword_witness :
    (searchTasks 1 none db0 = .error (.validationError "Keyword is required for searching")
      ∧ searchTasks 1 (some "") db0
          = .error (.validationError "Keyword is required for searching"))
    ∧ (searchTasks 7 (some "milk") db0
          = .ok (sortBy deadlineGe (db0.tasks.filter (specSearchMatch 7 "milk")))
        ∧ List.Perm (sortBy deadlineGe (db0.tasks.filter (specSearchMatch 7 "milk")))
            (db0.tasks.filter (specSearchMatch 7 "milk"))
        ∧ (sortBy deadlineGe (db0.tasks.filter (specSearchMatch 7 "milk"))).Pairwise
            (fun a b => deadlineGe a b = true)) :=
  ⟨c6_search_keyword.1 1 db0,
   c6_search_keyword.2.2 7 "milk" db0 (by decide) (by decide)⟩

end TaskMaster
